import Mathlib

/-!
Shallow embedding of the execution engine of the `full-self-coding`
repository (TypeScript, Bun) and proofs about it.

Files embedded:
* `src/dockerInstance.ts` — container handle: `runCommands`, `runCommandAsync`,
  `copyFileFromContainer`, `copyFileToContainer`, `startContainer` argument
  construction.
* `src/taskSolverManager.ts` — the task scheduler (`start` / `startTask`),
  modelled as a small-step transition system over the event-loop-observable
  states.
* `src/analyzer.ts` — the post-parse stage of `analyzeCodebase`.
* `src/codeCommitter.ts` — `processTaskResult` / `commitAllChanges` over an
  abstract git-repository state.

`src/task.ts` is not present in the sources (only its importers are), so the
`Task` / `TaskStatus` / `TaskResult` records are modelled from the spec's data
model (§3) and from the field usage visible in the importing code.

External effects (spawned processes, the container runtime, git) are
abstracted by explicit oracle parameters: a function giving each command's
exit code and captured streams, or a boolean saying whether a git apply
fails.  Control flow, accumulation and state updates follow the TypeScript
source line by line.
-/

namespace FSC

/-! ### dockerInstance.ts -/

/-- Status of Docker command execution (`DockerRunStatus`, dockerInstance.ts
lines 13-17). -/
inductive DockerRunStatus where
  | success
  | failure
  | timeout
deriving DecidableEq, Repr

/-- Observable result of one `Bun.spawnSync` / `Bun.spawn` call.  `exitCode`
is `none` when the process was killed before exiting normally (for example by
the `timeout` option), mirroring a `null` exit code in the runtime; the TS
test `execResult.exitCode !== 0` is then `exitCode ≠ some 0`. -/
structure ExecResult where
  exitCode : Option Int
  stdout : String
  stderr : String
deriving DecidableEq, Repr

/-- Outcome of attempting one spawn: either the call returned an
`ExecResult`, or it threw an exception with the given message (the `catch`
branch of `runCommands`). -/
inductive ExecOutcome where
  | res (r : ExecResult)
  | thrown (msg : String)
deriving DecidableEq, Repr

/-- The record returned by `runCommands` / `runCommandAsync`:
`{ output, success, status, error? }`. -/
structure CommandResult where
  output : String
  success : Bool
  status : DockerRunStatus
  error : Option String
deriving DecidableEq, Repr

/-- The `error || undefined` coercion at the end of `runCommands`
(dockerInstance.ts line 161): an empty accumulated error string becomes an
absent field. -/
def errField (err : String) : Option String :=
  if err = "" then none else some err

/-- The text appended to the error accumulator for a failing command
(dockerInstance.ts line 145): `` `\nError running '${cmd}': ${errText || "Unknown error"}` ``. -/
def errLine (cmd stderr : String) : String :=
  "\nError running '" ++ cmd ++ "': " ++ (if stderr = "" then "Unknown error" else stderr)

/-- The text appended to the output accumulator for one executed command
(dockerInstance.ts line 141): `` `\n$ ${cmd}\n${cmdOut}` ``. -/
def outLineFor (cmd stdout : String) : String :=
  "\n$ " ++ cmd ++ "\n" ++ stdout

/-- The command loop of `DockerInstance.runCommands` (dockerInstance.ts lines
126-162), threading the `output` and `error` accumulators.  `exec` is the
oracle for `spawnSync` on each command.  A non-zero (or null) exit code stops
the batch with status `failure`; an exception from the spawn is caught by the
surrounding `try` and also yields status `failure`. -/
def runCommandsGo (exec : String → ExecOutcome) :
    List String → String → String → CommandResult
  | [], out, err =>
      { output := out, success := true, status := DockerRunStatus.success,
        error := errField err }
  | c :: rest, out, err =>
      match exec c with
      | ExecOutcome.thrown msg =>
          { output := out, success := false, status := DockerRunStatus.failure,
            error := errField (err ++ "\nException: " ++ msg) }
      | ExecOutcome.res r =>
          let out := out ++ outLineFor c r.stdout
          if r.exitCode ≠ some 0 then
            { output := out, success := false, status := DockerRunStatus.failure,
              error := errField (err ++ errLine c r.stderr) }
          else
            runCommandsGo exec rest out err

/-- `DockerInstance.runCommands` (dockerInstance.ts lines 98-163).  The
container name is `null` until `startContainer` succeeds; in that case the
method throws (`Except.error`) instead of returning a `CommandResult`. -/
def runCommands (containerName : Option String) (exec : String → ExecOutcome)
    (cmds : List String) : Except String CommandResult :=
  match containerName with
  | none => Except.error "Container name is null, cannot run commands"
  | some _ => Except.ok (runCommandsGo exec cmds "" "")

/-- Outcome of the single `Bun.spawn` in `runCommandAsync`: a normal exit, a
thrown timeout error (`e.message` contains `timeout` or `e.name` is
`TimeoutError`), or another thrown error. -/
inductive AsyncOutcome where
  | res (r : ExecResult)
  | thrownTimeout (msg : String)
  | thrownOther (msg : String)
deriving DecidableEq, Repr

/-- `DockerInstance.runCommandAsync` (dockerInstance.ts lines 165-232).  The
`command` argument is a genuine string here, so the TS guard rejecting
non-string commands can never fire and is not represented. -/
def runCommandAsync (containerName : Option String) (exec : AsyncOutcome)
    (command : String) (timeoutSeconds : Option Nat) : Except String CommandResult :=
  match containerName with
  | none => Except.error "Container name is null, cannot run commands"
  | some _ =>
      match exec with
      | AsyncOutcome.res r =>
          let out := outLineFor command r.stdout
          if r.exitCode ≠ some 0 then
            Except.ok { output := out, success := false,
                        status := DockerRunStatus.failure,
                        error := errField (errLine command r.stderr) }
          else
            Except.ok { output := out, success := true,
                        status := DockerRunStatus.success, error := none }
      | AsyncOutcome.thrownTimeout _ =>
          Except.ok { output := "", success := false,
                      status := DockerRunStatus.timeout,
                      error := errField ("\nTimeout: Command execution exceeded "
                        ++ (match timeoutSeconds with
                            | some n => toString n
                            | none => "default") ++ " seconds") }
      | AsyncOutcome.thrownOther msg =>
          Except.ok { output := "", success := false,
                      status := DockerRunStatus.failure,
                      error := errField ("\nException: " ++ msg) }

/-- `DockerInstance.copyFileFromContainer` (dockerInstance.ts lines 257-276).
`cp` is the oracle for the `docker cp` spawn and `content` for the read of
the staged temporary file. -/
def copyFileFromContainer (containerName : Option String) (cp : ExecResult)
    (content : String) : Except String String :=
  match containerName with
  | none => Except.error "Container name is null, cannot copy file"
  | some _ =>
      if cp.exitCode ≠ some 0 then
        Except.error ("Failed to copy file from container: "
          ++ (if cp.stderr = "" then "Unknown error" else cp.stderr))
      else
        Except.ok content

/-- `DockerInstance.copyFileToContainer` (dockerInstance.ts lines 284-328).
A failing `mkdir -p` inside the container is only a logged warning; a failing
`docker cp` throws. -/
def copyFileToContainer (containerName : Option String) (cp : ExecResult) :
    Except String Unit :=
  match containerName with
  | none => Except.error "Container name is null, cannot copy file"
  | some _ =>
      if cp.exitCode ≠ some 0 then
        Except.error ("Failed to copy file to container: "
          ++ (if cp.stderr = "" then "Unknown error" else cp.stderr))
      else
        Except.ok ()

/-! ### config.ts -/

/-- The configuration fields read by the embedded code (config.ts interface
`Config`).  All are optional numbers or strings in the TS interface; the
counts are modelled as `Option Nat`.  The proxy fields are read by
`DockerInstance.startContainer` through `this.config?.httpProxy` although the
`Config` interface in config.ts does not declare them; they are carried here
as optional strings. -/
structure Config where
  maxParallelDockerContainers : Option Nat := none
  dockerMemoryMB : Option Nat := none
  dockerCpuCores : Option Nat := none
  dockerTimeoutSeconds : Option Nat := none
  httpProxy : Option String := none
  httpsProxy : Option String := none
  noProxy : Option String := none
deriving DecidableEq, Repr

/-- JavaScript `a || b` over optional strings: an absent or empty string is
falsy and falls through to `b`. -/
def jsOrStr (a b : Option String) : Option String :=
  match a with
  | some s => if s = "" then b else some s
  | none => b

/-- The argument list built by `DockerInstance.startContainer`
(dockerInstance.ts lines 57-81): base `docker run` arguments, the proxy
environment variables resolved from the config or the process environment,
then the image and the sleep-forever command.  `envLow`/`envUp` are the
lowercase and uppercase process-environment variables for each proxy pair. -/
def startContainerArgs (cfg : Config)
    (envHttpLow envHttpUp envHttpsLow envHttpsUp envNoLow envNoUp : Option String)
    (containerName image : String) : List String :=
  let httpProxy := jsOrStr cfg.httpProxy (jsOrStr envHttpLow envHttpUp)
  let httpsProxy := jsOrStr cfg.httpsProxy (jsOrStr envHttpsLow envHttpsUp)
  let noProxy := jsOrStr cfg.noProxy (jsOrStr envNoLow envNoUp)
  ["docker", "run", "-d", "--name", containerName]
    ++ (match httpProxy with
        | some p => ["-e", "http_proxy=" ++ p, "-e", "HTTP_PROXY=" ++ p]
        | none => [])
    ++ (match httpsProxy with
        | some p => ["-e", "https_proxy=" ++ p, "-e", "HTTPS_PROXY=" ++ p]
        | none => [])
    ++ (match noProxy with
        | some p => ["-e", "no_proxy=" ++ p, "-e", "NO_PROXY=" ++ p]
        | none => [])
    ++ [image, "sleep", "infinity"]

/-! ### task.ts (absent from the sources) -/

/-- Modelled from the spec: task statuses (`TaskStatus` in the missing
`src/task.ts`; spec §3 gives `status ∈ {not_started, success, skipped,
failure}`).  The importing code uses exactly the members `NOT_STARTED`,
`SUCCESS`, `SKIPPED`, `FAILURE`. -/
inductive TaskStatus where
  | notStarted
  | success
  | skipped
  | failure
deriving DecidableEq, Repr

/-- A status is terminal when it is not the initial `not_started` state
(spec §3: `completedAt` is set "at transition to terminal state"). -/
def TaskStatus.isTerminal : TaskStatus → Bool
  | TaskStatus.notStarted => false
  | _ => true

/-- Modelled from the spec: the `Task` record of the missing `src/task.ts`
(spec §3), with the fields the importing code and tests use: `ID`, `title`,
`description`, `relatedFiles`, `followingTasks` (successor task ids),
`priority`. -/
structure Task where
  ID : String
  title : String
  description : String
  relatedFiles : List String := []
  followingTasks : List String := []
  priority : Int := 1
deriving DecidableEq, Repr

/-- Modelled from the spec: the `TaskResult` record of the missing
`src/task.ts` (spec §3): all `Task` fields (the `...task` spread, kept here
as the `task` component) plus `status`, `report`, `completedAt` and the
optional `gitDiff` patch text assigned by the task solver. -/
structure TaskResult where
  task : Task
  status : TaskStatus
  report : String
  completedAt : Nat := 0
  gitDiff : Option String := none
deriving DecidableEq, Repr

/-! ### taskSolverManager.ts — the scheduler as a transition system

`TaskSolverManager.start` (lines 24-34) repeatedly dispatches queued tasks
while `activeTasks.size < maxParallelDockerContainers`, then sleeps; it
returns when the queue is empty and the active map is empty.  `startTask`
(lines 36-56) synchronously inserts the task id into the active map, then
asynchronously: on resolution pushes `taskSolver.getResult()`, on rejection
pushes a failure result, and finally deletes the task id from the map.

The model is a small-step relation over the states observable at event-loop
boundaries: a `dispatch` step is one iteration of the inner while loop (its
synchronous prefix of `startTask` included), and a `complete` step is the
continuation of one in-flight `startTask` (result push plus map delete,
which the event loop runs atomically). -/

/-- `config.maxParallelDockerContainers || 1` (taskSolverManager.ts line 17):
an absent or zero (falsy) value defaults to 1. -/
def effectiveMaxParallel (cfg : Config) : Nat :=
  match cfg.maxParallelDockerContainers with
  | none => 1
  | some 0 => 1
  | some (n + 1) => n + 1

/-- JavaScript `Map.set` on the key list: an existing key keeps its position
(only the value is overwritten), a new key is appended in insertion order. -/
def mapInsert (k : String) (ks : List String) : List String :=
  if k ∈ ks then ks else ks ++ [k]

/-- The status mapping of the task solver's final-report parse
(taskSolver.ts line 139): `"success"` and `"skipped"` map to themselves and
any other string maps to `FAILURE`. -/
def solverStatusOfReport (s : String) : TaskStatus :=
  if s = "success" then TaskStatus.success
  else if s = "skipped" then TaskStatus.skipped
  else TaskStatus.failure

/-- What one in-flight solver does when its `solve()` promise settles:
either it resolved, carrying the parsed final-report fields (and the diff
file content read when the report status is `"success"`), or it rejected
with an exception message.  `now` is the `Date.now()` timestamp. -/
inductive SolveOutcome where
  | ok (title description statusStr report diff : String) (now : Nat)
  | err (msg : String) (now : Nat)
deriving DecidableEq, Repr

/-- The `TaskResult` the solver holds after a successful `solve()`
(taskSolver.ts lines 20-25 and 133-153): the initial `{...task, NOT_STARTED,
'', 0}` record updated with the final report's `title`, `description`,
mapped `status`, `report` and `completedAt`, plus `gitDiff` when the report
status string is `"success"`. -/
def solverResultOf (t : Task) (title description statusStr report diff : String)
    (now : Nat) : TaskResult :=
  { task := { t with title := title, description := description },
    status := solverStatusOfReport statusStr,
    report := report,
    completedAt := now,
    gitDiff := if statusStr = "success" then some diff else none }

/-- The failure result built by the scheduler's catch block
(taskSolverManager.ts lines 46-51): `{...task, FAILURE, report with the
exception text, Date.now()}`. -/
def schedFailResult (t : Task) (msg : String) (now : Nat) : TaskResult :=
  { task := t,
    status := TaskStatus.failure,
    report := "Error solving task: " ++ msg,
    completedAt := now,
    gitDiff := none }

/-- The result a completion step appends to `completedTasks`: the solver's
own result on resolution, the scheduler's failure result on rejection. -/
def completionResult (t : Task) : SolveOutcome → TaskResult
  | SolveOutcome.ok title description statusStr report diff now =>
      solverResultOf t title description statusStr report diff now
  | SolveOutcome.err msg now => schedFailResult t msg now

/-- The scheduler's state (taskSolverManager.ts lines 7-9): the pending
`taskQueue`, the solvers whose `startTask` continuation has not yet run
(`inflight`), the key list of the `activeTasks` map, and `completedTasks`. -/
structure SchedState where
  queue : List Task
  inflight : List Task
  activeTasks : List String
  completed : List TaskResult
deriving DecidableEq, Repr

/-- The state of a fresh manager after `addTask` was called for each task
in order (taskSolverManager.ts lines 20-22). -/
def initState (ts : List Task) : SchedState :=
  { queue := ts, inflight := [], activeTasks := [], completed := [] }

/-- One observable step of `TaskSolverManager.start`:

* `dispatch` — one iteration of the inner while loop (line 26): it fires only
  while `activeTasks.size < maxParallelDockerContainers`, shifts the queue
  head and runs the synchronous prefix of `startTask`, which `Map.set`s the
  task id.
* `complete` — the continuation of one in-flight solver (lines 40-55): its
  result (success or caught exception) is pushed to `completedTasks` and its
  task id is `Map.delete`d from `activeTasks`. -/
inductive Step (maxP : Nat) : SchedState → SchedState → Prop where
  | dispatch (s : SchedState) (t : Task) (rest : List Task)
      (hq : s.queue = t :: rest)
      (hcap : s.activeTasks.length < maxP) :
      Step maxP s
        { queue := rest,
          inflight := s.inflight ++ [t],
          activeTasks := mapInsert t.ID s.activeTasks,
          completed := s.completed }
  | complete (s : SchedState) (t : Task) (o : SolveOutcome)
      (ht : t ∈ s.inflight) :
      Step maxP s
        { queue := s.queue,
          inflight := s.inflight.erase t,
          activeTasks := s.activeTasks.erase t.ID,
          completed := s.completed ++ [completionResult t o] }

/-- States reachable from a given start state of the scheduler. -/
inductive Reachable (maxP : Nat) (s : SchedState) : SchedState → Prop where
  | refl : Reachable maxP s s
  | tail {u v : SchedState} : Reachable maxP s u → Step maxP u v →
      Reachable maxP s v

/-- `start()` returns exactly when its while condition fails
(taskSolverManager.ts line 25): the queue is empty and the active map is
empty. -/
def SchedState.returned (s : SchedState) : Prop :=
  s.queue = [] ∧ s.activeTasks = []

/-- Invariant of the scheduler's reachable states: some prefix of the added
tasks has been dispatched (the queue is the matching suffix), the dispatched
tasks are split between the in-flight solvers and the completed results, the
active map's keys are exactly the in-flight task ids, and every completed
result has a terminal status. -/
def SchedInv (ts : List Task) (s : SchedState) : Prop :=
  ∃ k, k ≤ ts.length ∧ s.queue = ts.drop k ∧
    (s.completed.map (fun r => r.task.ID) ++ s.inflight.map Task.ID).Perm
      ((ts.take k).map Task.ID) ∧
    s.activeTasks = s.inflight.map Task.ID ∧
    (∀ r ∈ s.completed, r.status.isTerminal = true)

/-! ### analyzer.ts — the post-parse stage of `analyzeCodebase` -/

/-- The tail of `analyzeCodebase` (analyzer.ts lines 123-148): after the
`cat /app/tasks.json` batch, a non-success read status throws; otherwise the
output goes through `trimJSONObjectArray` and `JSON.parse` (abstracted here
as the already-computed `parsed` value) and the parsed task list is returned
as-is.  `errText` is the `readTasksResult.error || readTasksResult.output`
string interpolated into the thrown message. -/
def analyzerAcceptTasks (readStatus : DockerRunStatus) (errText : String)
    (parsed : Except String (List Task)) : Except String (List Task) :=
  if readStatus ≠ DockerRunStatus.success then
    Except.error ("Failed to read tasks.json from Docker: " ++ errText)
  else
    match parsed with
    | Except.error e => Except.error ("Error parsing tasks.json: " ++ e)
    | Except.ok tasks => Except.ok tasks

/-- Following the spec's words (§4.4 step 6), for comparison with the code:
"Validate: count is within `[minTasks, maxTasks]`; each entry has non-empty
`id`, `title`, `description`, and a numeric `priority`."  The priority of a
modelled `Task` is always numeric, so that conjunct is identically true. -/
def specAnalyzerValidate (minTasks maxTasks : Nat) (tasks : List Task) : Bool :=
  decide (minTasks ≤ tasks.length) && decide (tasks.length ≤ maxTasks) &&
    tasks.all (fun t => !(t.ID = "") && !(t.title = "") && !(t.description = ""))

/-! ### codeCommitter.ts — git state machine

The git working repository is abstracted to the data `CodeCommitter`
manipulates: the commit `HEAD` points at, the branch names created so far,
whether tracked files are modified (staged or not), whether untracked files
exist, the stash depth, and a counter for fresh commit ids.  Each `execSync`
git invocation becomes a total function on this state (the model assumes git
itself succeeds; the only injected failure is the `git apply` of a task's
diff, which the source wraps in its per-task try/catch). -/

/-- `GitStateOptions` (codeCommitter.ts lines 10-15) with the constructor's
defaults (lines 27-33). -/
structure GitStateOptions where
  autoStash : Bool := false
  autoCommit : Bool := false
  ignoreUntracked : Bool := false
  backupBranch : Option String := none
deriving DecidableEq, Repr

/-- Abstract state of the host git repository. -/
structure GitRepo where
  head : String
  branches : List String := []
  dirtyTracked : Bool := false
  untracked : Bool := false
  stashDepth : Nat := 0
  nextCommitId : Nat := 0
deriving DecidableEq, Repr

/-- `git checkout <commit>` — moves `HEAD`. -/
def gitCheckout (c : String) (g : GitRepo) : GitRepo := { g with head := c }

/-- `git checkout -b <name>` — records a new branch at the current commit;
`HEAD` stays on the same commit. -/
def gitNewBranch (name : String) (g : GitRepo) : GitRepo :=
  { g with branches := g.branches ++ [name] }

/-- `git apply --whitespace=fix <patch>` on a non-empty diff — the tracked
files become modified. -/
def gitApplyDiff (g : GitRepo) : GitRepo := { g with dirtyTracked := true }

/-- `git add -A` followed by `git commit` — stages everything (untracked
included) and creates a fresh commit `HEAD` moves to. -/
def gitAddCommit (g : GitRepo) : GitRepo :=
  { g with head := "commit-" ++ toString g.nextCommitId,
           nextCommitId := g.nextCommitId + 1,
           dirtyTracked := false, untracked := false }

/-- `git reset --hard HEAD` — discards tracked modifications. -/
def gitResetHard (g : GitRepo) : GitRepo := { g with dirtyTracked := false }

/-- `git clean -fd` — removes untracked files and directories. -/
def gitCleanFd (g : GitRepo) : GitRepo := { g with untracked := false }

/-- `git stash push` — saves tracked modifications (untracked files are not
included without `-u`). -/
def gitStashPush (g : GitRepo) : GitRepo :=
  { g with dirtyTracked := false, stashDepth := g.stashDepth + 1 }

/-- `git stash pop` — restores the most recent stash, making the tracked
files modified again. -/
def gitStashPop (g : GitRepo) : GitRepo :=
  if g.stashDepth = 0 then g
  else { g with dirtyTracked := true, stashDepth := g.stashDepth - 1 }

/-- `CodeCommitter.isGitRepoClean` (codeCommitter.ts lines 201-219):
`git status --porcelain` is empty, or contains only `??` lines when
`ignoreUntracked` is set. -/
def isGitRepoClean (opts : GitStateOptions) (g : GitRepo) : Bool :=
  if opts.ignoreUntracked then !g.dirtyTracked
  else !g.dirtyTracked && !g.untracked

/-- `CodeCommitter.returnToOriginalNode` (codeCommitter.ts lines 157-172):
check out the anchor commit, then `cleanWorkingDirectory` (lines 177-196):
`git reset --hard HEAD` and `git clean -fd`. -/
def returnToOriginalNode (anchor : String) (g : GitRepo) : GitRepo :=
  gitCleanFd (gitResetHard (gitCheckout anchor g))

/-- `CodeCommitter.createTaskBranch` (codeCommitter.ts lines 54-74): check
out the anchor, then create and check out `task-<id>-<timestamp>`.  `stamp`
stands for the `Date.now()` suffix. -/
def createTaskBranch (anchor : String) (taskId stamp : String) (g : GitRepo) :
    GitRepo :=
  gitNewBranch ("task-" ++ taskId ++ "-" ++ stamp) (gitCheckout anchor g)

/-- `CodeCommitter.createBackupBranch` (codeCommitter.ts lines 258-283):
when a backup branch name is configured, create it at the current commit and
check the anchor out again. -/
def createBackupBranch (opts : GitStateOptions) (anchor : String)
    (stamp : String) (g : GitRepo) : GitRepo :=
  match opts.backupBranch with
  | none => g
  | some name => gitCheckout anchor (gitNewBranch (name ++ "-" ++ stamp) g)

/-- `CodeCommitter.autoCommitChanges` (codeCommitter.ts lines 288-318): a
clean porcelain status commits nothing; otherwise stage everything and
commit. -/
def autoCommitChanges (g : GitRepo) : GitRepo :=
  if !g.dirtyTracked && !g.untracked then g else gitAddCommit g

/-- `CodeCommitter.handleDirtyGitRepo` (codeCommitter.ts lines 367-414):
create the backup branch if configured, then try auto-stash, then
auto-commit; with neither enabled the dirty state is an error.  Returns the
new repo state, whether handling succeeded, and whether changes were
stashed. -/
def handleDirtyGitRepo (opts : GitStateOptions) (anchor stamp : String)
    (g : GitRepo) : GitRepo × Bool × Bool :=
  let g1 := createBackupBranch opts anchor stamp g
  if opts.autoStash then (gitStashPush g1, true, true)
  else if opts.autoCommit then (autoCommitChanges g1, true, false)
  else (g1, false, false)

/-- `CodeCommitter.validateTaskResult` (codeCommitter.ts lines 419-431): a
missing `ID` or `title` throws (`status` is always a member of the status
enum here, so its falsiness check cannot fire). -/
def validateTaskResult (tr : TaskResult) : Bool :=
  !(tr.task.ID = "") && !(tr.task.title = "")

/-- The `!taskResult.gitDiff || taskResult.gitDiff.trim() === ''` skip test
of `processTaskResult` (codeCommitter.ts line 448): the diff is absent, or
trims to the empty string — that is, every character is whitespace. -/
def gitDiffEmpty (tr : TaskResult) : Bool :=
  match tr.gitDiff with
  | none => true
  | some d => d.data.all (fun ch => ch.isWhitespace)

/-- The branch-apply-commit sequence of `CodeCommitter.processTaskResult`
(codeCommitter.ts lines 462-476) once the repository is clean (or cleaned):
create the task branch from the anchor, apply the diff (`applyFails` injects
the one modelled failure, answered by the catch block with
`returnToOriginalNode`), commit, and return to the anchor.  The returned
booleans are the per-task `success` flag and the `stashedChanges` field. -/
def processWithCleanRepo (anchor stamp : String) (tr : TaskResult)
    (applyFails : Bool) (g1 : GitRepo) (st1 : Bool) : GitRepo × Bool × Bool :=
  let g2 := createTaskBranch anchor tr.task.ID stamp g1
  if applyFails then
    (returnToOriginalNode anchor g2, false, st1)
  else
    let g3 := gitAddCommit (gitApplyDiff g2)
    (returnToOriginalNode anchor g3, true, st1)

/-- `CodeCommitter.processTaskResult` continued: validate; skip empty diffs;
on a dirty repository run `handleDirtyGitRepo`, whose failure throws and is
caught (`returnToOriginalNode`); otherwise run the branch-apply-commit
sequence above. -/
def processTaskResult (opts : GitStateOptions) (anchor stamp : String)
    (tr : TaskResult) (applyFails : Bool) (g : GitRepo) (stashed : Bool) :
    GitRepo × Bool × Bool :=
  if !(validateTaskResult tr) then
    (returnToOriginalNode anchor g, false, stashed)
  else if gitDiffEmpty tr then
    (g, true, stashed)
  else if isGitRepoClean opts g then
    processWithCleanRepo anchor stamp tr applyFails g stashed
  else
    let h := handleDirtyGitRepo opts anchor stamp g
    if h.2.1 then
      processWithCleanRepo anchor stamp tr applyFails h.1 (stashed || h.2.2)
    else
      (returnToOriginalNode anchor h.1, false, stashed || h.2.2)

/-- One fold step of `commitAllChanges`: thread the repo state and the
`stashedChanges` flag through `processTaskResult`, dropping the per-task
summary record (not needed for the state claims). -/
def committerStep (opts : GitStateOptions) (anchor stamp : String)
    (st : GitRepo × Bool) (tra : TaskResult × Bool) : GitRepo × Bool :=
  let r := processTaskResult opts anchor stamp tra.1 tra.2 st.1 st.2
  (r.1, r.2.2)

/-- `CodeCommitter.commitAllChanges` (codeCommitter.ts lines 501-571):
process every task result in order, then pop the stash if changes were
stashed.  The anchor is `originalGitNode`, the `HEAD` recorded at
construction, so a run starts from `(g0, false)` with `anchor = g0.head`.
Each list entry carries its `applyFails` oracle bit. -/
def commitAllChanges (opts : GitStateOptions) (stamp : String)
    (trs : List (TaskResult × Bool)) (g0 : GitRepo) : GitRepo × Bool :=
  let final := trs.foldl (committerStep opts g0.head stamp) (g0, false)
  if final.2 then (gitStashPop final.1, false) else final

/-- The successive `(repo, stashedChanges)` states of a `commitAllChanges`
run, before the ending stash pop: the state after the constructor and after
each processed task. -/
def committerStates (opts : GitStateOptions) (stamp : String)
    (trs : List (TaskResult × Bool)) (g0 : GitRepo) : List (GitRepo × Bool) :=
  trs.scanl (committerStep opts g0.head stamp) (g0, false)

/-! ### Concrete instances used by witnesses and counterexamples -/

/-- Expected stdout of one executed command under an oracle. -/
def stdoutOf : ExecOutcome → String
  | ExecOutcome.res r => r.stdout
  | ExecOutcome.thrown _ => ""

/-- The output accumulated for a list of executed commands: each command's
stdout prefixed by its `$ <cmd>` line. -/
def batchOutput (exec : String → ExecOutcome) : List String → String
  | [] => ""
  | c :: cs => outLineFor c (stdoutOf (exec c)) ++ batchOutput exec cs

/-- Oracle for a batch where `a` and `c` succeed and `b` exits 1 with
stderr `boom`. -/
def execAbc : String → ExecOutcome := fun c =>
  if c = "a" then ExecOutcome.res { exitCode := some 0, stdout := "oa", stderr := "" }
  else if c = "b" then ExecOutcome.res { exitCode := some 1, stdout := "ob", stderr := "boom" }
  else ExecOutcome.res { exitCode := some 0, stdout := "oc", stderr := "" }

/-- Oracle for a batch whose only command is killed by the per-command
`timeout` option passed to `spawnSync`: the process never exits normally, so
its exit code is null. -/
def execKilledByTimeout : String → ExecOutcome :=
  fun _ => ExecOutcome.res { exitCode := none, stdout := "", stderr := "" }

/-- A config with both resource limits set (the defaults of
`DEFAULT_CONFIG`: 512 MB, and 2 cores for contrast). -/
def cfgWithLimits : Config := { dockerMemoryMB := some 512, dockerCpuCores := some 2 }

/-- A parsed task entry with an empty `id`, which the spec says the analyzer
must reject. -/
def taskEmptyId : Task := { ID := "", title := "t", description := "d" }

/-- A config whose parallelism cap is 2. -/
def cfgPar2 : Config := { maxParallelDockerContainers := some 2 }

/-- A config with every field absent, so the parallelism cap defaults to 1. -/
def cfgDefault : Config := {}

/-- A task with id `A`; queued twice it exhibits the duplicate-id hole. -/
def taskA : Task := { ID := "A", title := "t", description := "d" }

/-- A successful solve outcome used by concrete traces. -/
def okOutcome : SolveOutcome := SolveOutcome.ok "t" "d" "success" "done" "diffA" 5

/-- The scheduler state reached from `initState [taskA, taskA]` with cap 2
by: dispatch, dispatch (the second `Map.set` overwrites the first entry, so
the map has one key), then completion of one of the two in-flight solvers
(the `Map.delete` removes the shared key).  `start()`'s loop condition is
now false although a solver is still in flight. -/
def dupFinalState : SchedState :=
  { queue := [], inflight := [taskA],
    activeTasks := [], completed := [completionResult taskA okOutcome] }

/-- The scheduler state after dispatching `taskA` from `initState [taskA]`. -/
def oneDispatchedState : SchedState :=
  { queue := [], inflight := [taskA], activeTasks := ["A"], completed := [] }

/-- The target state of an error completion: the solver's exception is
caught, a failure result is appended, and the task id is deleted from the
active map (taskSolverManager.ts lines 44-55). -/
def errCompletionState (s : SchedState) (t : Task) (msg : String) (now : Nat) :
    SchedState :=
  { queue := s.queue,
    inflight := s.inflight.erase t,
    activeTasks := s.activeTasks.erase t.ID,
    completed := s.completed ++ [schedFailResult t msg now] }

/-- A scheduler state with a single in-flight task `B`. -/
def taskB : Task := { ID := "B", title := "tb", description := "db" }

/-- State with `taskB` in flight and nothing else. -/
def oneInflightB : SchedState :=
  { queue := [], inflight := [taskB], activeTasks := ["B"], completed := [] }

/-- Predecessor task: its `followingTasks` lists `D` as its successor. -/
def taskC : Task :=
  { ID := "C", title := "tc", description := "dc", followingTasks := ["D"] }

/-- Successor task of `taskC`. -/
def taskD : Task := { ID := "D", title := "td", description := "dd" }

/-- The scheduler state reached from `initState [taskC, taskD]` with cap 2
by two consecutive dispatches: the successor `D` is in flight while its
predecessor `C` is also in flight and has no terminal result. -/
def bothInflightState : SchedState :=
  { queue := [], inflight := [taskC, taskD],
    activeTasks := ["C", "D"], completed := [] }

/-- The state reached from `initState [taskC, taskD]` with cap 1 by
dispatching `C` and completing it: the queue holds the still-undispatched
`D` and the active map is empty. -/
def serialMidState : SchedState :=
  { queue := [taskD], inflight := [],
    activeTasks := [], completed := [completionResult taskC okOutcome] }

/-- The terminal state reached from `initState [taskA]` with the default cap
by dispatching and completing the single task. -/
def singleDoneState : SchedState :=
  { queue := [], inflight := [],
    activeTasks := [], completed := [completionResult taskA okOutcome] }

/-- Committer options with no recovery strategy enabled (the constructor
defaults). -/
def plainOpts : GitStateOptions := {}

/-- Committer options with auto-stash enabled (spec §4.7 recovery
strategy). -/
def stashOpts : GitStateOptions := { autoStash := true }

/-- A host repository on commit `anchor0` with an untracked file present. -/
def repoUntracked : GitRepo := { head := "anchor0", untracked := true }

/-- A host repository on commit `anchor0` with a tracked modification. -/
def repoDirty : GitRepo := { head := "anchor0", dirtyTracked := true }

/-- A task result with no patch: `processTaskResult` records a no-op success
without touching the repository. -/
def noopResult : TaskResult :=
  { task := { ID := "T1", title := "t1", description := "d1" },
    status := TaskStatus.success, report := "r1" }

/-- A clean host repository on commit `anchor0`. -/
def repoClean : GitRepo := { head := "anchor0" }

/-- A task result carrying a non-empty patch. -/
def patchResult : TaskResult :=
  { task := { ID := "T2", title := "t2", description := "d2" },
    status := TaskStatus.success, report := "r2",
    gitDiff := some "diff --git a b" }

/-! ### Helper lemmas -/

/-- Whatever outcome a completion has, the appended result keeps the
dispatched task's `ID`. -/
theorem completionResult_task_ID (t : Task) (o : SolveOutcome) :
    (completionResult t o).task.ID = t.ID := by
  cases o <;> rfl

/-- Whatever outcome a completion has, the appended result's status is
terminal: the solver maps every report status string to `SUCCESS`, `SKIPPED`
or `FAILURE`, and the scheduler's catch block writes `FAILURE`. -/
theorem completionResult_isTerminal (t : Task) (o : SolveOutcome) :
    (completionResult t o).status.isTerminal = true := by
  cases o with
  | ok title description statusStr report diff now =>
      simp only [completionResult, solverResultOf, solverStatusOfReport]
      split
      · rfl
      · split <;> rfl
  | err msg now => rfl

/-- Erasing an element commutes with mapping when the mapped list has no
duplicates. -/
theorem map_erase_of_nodup {α β : Type} [DecidableEq α] [DecidableEq β]
    (f : α → β) :
    ∀ (l : List α), (l.map f).Nodup → ∀ a : α, a ∈ l →
      (l.erase a).map f = (l.map f).erase (f a)
  | [], _, a, ha => by cases ha
  | b :: l, hnd, a, ha => by
      by_cases hba : b = a
      · subst hba
        simp [List.erase_cons_head]
      · have hal : a ∈ l := by
          rcases List.mem_cons.mp ha with h | h
          · exact absurd h.symm hba
          · exact h
        have hfa : f a ∈ l.map f := List.mem_map_of_mem f hal
        have hfb : f b ∉ l.map f := (List.nodup_cons.mp hnd).1
        have hne : f b ≠ f a := fun h => hfb (h ▸ hfa)
        have h1 : (b :: l).erase a = b :: l.erase a :=
          List.erase_cons_tail (by simpa using hba)
        have h2 : (f b :: l.map f).erase (f a) = f b :: (l.map f).erase (f a) :=
          List.erase_cons_tail (by simpa using hne)
        rw [h1, List.map_cons, List.map_cons, h2,
          map_erase_of_nodup f l (List.nodup_cons.mp hnd).2 a hal]

/-- The scheduler invariant holds in every reachable state, provided the
added tasks have pairwise distinct ids (the spec's data-model requirement:
`id` is "unique within a run"). -/
theorem schedInv_reachable {maxP : Nat} {ts : List Task} {s : SchedState}
    (hnd : (ts.map Task.ID).Nodup)
    (h : Reachable maxP (initState ts) s) : SchedInv ts s := by
  induction h with
  | refl =>
      refine ⟨0, Nat.zero_le _, rfl, by simp [initState], by simp [initState],
        by simp [initState]⟩
  | tail hr hstep ih =>
      rename_i u v
      obtain ⟨k, hk, hq, hperm, hkeys, hterm⟩ := ih
      cases hstep with
      | dispatch t rest huq hcap =>
          rw [hq] at huq
          have hdrop : ts.drop k = t :: rest := huq
          have hklt : k < ts.length := by
            by_contra hge
            rw [List.drop_eq_nil_of_le (Nat.le_of_not_lt hge)] at hdrop
            exact List.noConfusion hdrop
          have hgetk : ts[k]? = some t := by
            have h0 : (ts.drop k)[0]? = some t := by rw [hdrop]; simp
            rwa [List.getElem?_drop, Nat.add_zero] at h0
          have htake : ts.take (k + 1) = ts.take k ++ [t] := by
            rw [List.take_succ, hgetk]; rfl
          have hmem_drop : t.ID ∈ (ts.drop k).map Task.ID := by
            rw [hdrop]; exact List.mem_cons_self _ _
          have hnotin_take : t.ID ∉ (ts.take k).map Task.ID := by
            have hsplit : (ts.take k).map Task.ID ++ (ts.drop k).map Task.ID
                = ts.map Task.ID := by
              rw [← List.map_append, List.take_append_drop]
            have hdisj := (List.nodup_append.mp (hsplit ▸ hnd)).2.2
            exact fun hmem => hdisj hmem hmem_drop
          have hnotin_infl : t.ID ∉ u.inflight.map Task.ID := by
            intro hmem
            exact hnotin_take (hperm.subset (List.mem_append_right _ hmem))
          refine ⟨k + 1, hklt, ?_, ?_, ?_, hterm⟩
          · show rest = ts.drop (k + 1)
            have h1 := congrArg List.tail hdrop
            rw [List.tail_drop] at h1
            exact h1.symm
          · show (u.completed.map (fun r => r.task.ID)
                ++ (u.inflight ++ [t]).map Task.ID).Perm
                ((ts.take (k + 1)).map Task.ID)
            rw [htake, List.map_append, List.map_append, ← List.append_assoc]
            exact hperm.append_right _
          · show mapInsert t.ID u.activeTasks = (u.inflight ++ [t]).map Task.ID
            rw [mapInsert, if_neg (hkeys ▸ hnotin_infl), hkeys, List.map_append,
              List.map_singleton]
      | complete t o ht =>
          have hnd_take : ((ts.take k).map Task.ID).Nodup := by
            rw [List.map_take]
            exact hnd.sublist (List.take_sublist k (ts.map Task.ID))
          have hnd_ci := hperm.nodup_iff.mpr hnd_take
          have hinfl_nd : (u.inflight.map Task.ID).Nodup :=
            (List.nodup_append.mp hnd_ci).2.1
          refine ⟨k, hk, hq, ?_, ?_, ?_⟩
          · show ((u.completed ++ [completionResult t o]).map (fun r => r.task.ID)
                ++ (u.inflight.erase t).map Task.ID).Perm
                ((ts.take k).map Task.ID)
            have hperm2 : (u.inflight.map Task.ID).Perm
                (t.ID :: (u.inflight.erase t).map Task.ID) := by
              have h1 : u.inflight.Perm (t :: u.inflight.erase t) :=
                List.perm_cons_erase ht
              simpa using h1.map Task.ID
            have heq : (u.completed ++ [completionResult t o]).map
                  (fun r => r.task.ID) ++ (u.inflight.erase t).map Task.ID
                = u.completed.map (fun r => r.task.ID)
                  ++ (t.ID :: (u.inflight.erase t).map Task.ID) := by
              simp [completionResult_task_ID]
            rw [heq]
            exact ((hperm2.symm.append_left _).trans hperm)
          · show u.activeTasks.erase t.ID = (u.inflight.erase t).map Task.ID
            rw [hkeys, map_erase_of_nodup Task.ID u.inflight hinfl_nd t ht]
          · intro r hr
            rcases List.mem_append.mp hr with hr | hr
            · exact hterm r hr
            · rcases List.mem_singleton.mp hr with rfl
              exact completionResult_isTerminal t o

/-- The active map never grows past the parallelism cap: the dispatch guard
requires `size < maxP` before a `Map.set` that adds at most one key, and a
completion only deletes. -/
theorem sched_keys_le {maxP : Nat} {ts : List Task} {s : SchedState}
    (h : Reachable maxP (initState ts) s) : s.activeTasks.length ≤ maxP := by
  induction h with
  | refl => simp [initState]
  | tail hr hstep ih =>
      rename_i u v
      cases hstep with
      | dispatch t rest huq hcap =>
          show (mapInsert t.ID u.activeTasks).length ≤ maxP
          rw [mapInsert]
          split
          · exact Nat.le_of_lt hcap
          · rw [List.length_append, List.length_singleton]
            exact hcap
      | complete t o ht =>
          exact le_trans (List.Sublist.length_le (List.erase_sublist _ _)) ih

/-- The command loop stops at the first command answered with a non-zero (or
null) exit code: the accumulated output covers exactly the commands up to and
including it, the status is `failure`, and the error field holds that
command's stderr line.  Stated for arbitrary accumulator values so it can be
proved by induction on the successful prefix. -/
theorem runCommandsGo_firstFailure (exec : String → ExecOutcome) :
    ∀ (pre : List String) (bad : String) (rest : List String) (rb : ExecResult),
      (∀ c ∈ pre, ∃ r : ExecResult, exec c = ExecOutcome.res r ∧ r.exitCode = some 0) →
      exec bad = ExecOutcome.res rb → rb.exitCode ≠ some 0 →
      ∀ (out err : String),
      runCommandsGo exec (pre ++ bad :: rest) out err =
        { output := out ++ batchOutput exec (pre ++ [bad]),
          success := false,
          status := DockerRunStatus.failure,
          error := errField (err ++ errLine bad rb.stderr) }
  | [], bad, rest, rb, hpre, hbad, hbadExit, out, err => by
      simp only [List.nil_append, runCommandsGo, hbad, batchOutput, stdoutOf,
        if_pos hbadExit, String.append_empty]
  | p :: ps, bad, rest, rb, hpre, hbad, hbadExit, out, err => by
      obtain ⟨rp, hp, hp0⟩ := hpre p (List.mem_cons_self p ps)
      have hrec := runCommandsGo_firstFailure exec ps bad rest rb
        (fun c hc => hpre c (List.mem_cons_of_mem p hc)) hbad hbadExit
        (out ++ outLineFor p rp.stdout) err
      simp only [List.cons_append, runCommandsGo, hp]
      rw [if_neg (by simp [hp0])]
      refine hrec.trans ?_
      simp [batchOutput, stdoutOf, hp, String.append_assoc]

/-- The command loop only ever produces statuses `success` and `failure`:
no branch of `runCommands` assigns `TIMEOUT` (the special case that did was
commented out, dockerInstance.ts lines 116-124). -/
theorem runCommandsGo_status (exec : String → ExecOutcome) :
    ∀ (cmds : List String) (out err : String),
      (runCommandsGo exec cmds out err).status = DockerRunStatus.success
      ∨ (runCommandsGo exec cmds out err).status = DockerRunStatus.failure
  | [], out, err => Or.inl rfl
  | c :: rest, out, err => by
      cases hc : exec c with
      | thrown m =>
          simp only [runCommandsGo, hc]
          exact Or.inr trivial
      | res r =>
          simp only [runCommandsGo, hc]
          by_cases hcond : r.exitCode = some 0
          · rw [if_neg (by simp [hcond])]
            exact runCommandsGo_status exec rest _ _
          · rw [if_pos (by simpa using hcond)]
            exact Or.inr rfl

/-- Every path of `processTaskResult` leaves `HEAD` on the anchor: the no-op
paths never move it and every other path ends in `returnToOriginalNode`. -/
theorem processTaskResult_head (opts : GitStateOptions) (anchor stamp : String)
    (tr : TaskResult) (af : Bool) (g : GitRepo) (st : Bool)
    (hg : g.head = anchor) :
    (processTaskResult opts anchor stamp tr af g st).1.head = anchor := by
  have hc : ∀ g1 st1,
      (processWithCleanRepo anchor stamp tr af g1 st1).1.head = anchor := by
    intro g1 st1
    rw [processWithCleanRepo]
    split
    · rfl
    · rfl
  rw [processTaskResult]
  split_ifs
  · rfl
  · exact hg
  · apply hc
  · cases hh : (handleDirtyGitRepo opts anchor stamp g).2.1
    · simp only [hh]
      rfl
    · simp only [hh]
      apply hc

/-- Every path of `processTaskResult` other than the two no-op paths
(validation failure is not a no-op here: it also returns to the anchor) runs
`returnToOriginalNode`, which checks out the anchor, resets hard and removes
untracked files. -/
theorem processTaskResult_cleans (opts : GitStateOptions) (anchor stamp : String)
    (tr : TaskResult) (af : Bool) (g : GitRepo) (st : Bool)
    (h : validateTaskResult tr = false ∨ gitDiffEmpty tr = false) :
    (processTaskResult opts anchor stamp tr af g st).1.head = anchor
    ∧ (processTaskResult opts anchor stamp tr af g st).1.dirtyTracked = false
    ∧ (processTaskResult opts anchor stamp tr af g st).1.untracked = false := by
  rw [processTaskResult]
  split
  · exact ⟨rfl, rfl, rfl⟩
  · rename_i hv
    split
    · rename_i hd
      rcases h with h | h
      · rw [h] at hv
        simp at hv
      · rw [h] at hd
        simp at hd
    · have hc : ∀ g1 st1,
          (processWithCleanRepo anchor stamp tr af g1 st1).1.head = anchor
          ∧ (processWithCleanRepo anchor stamp tr af g1 st1).1.dirtyTracked = false
          ∧ (processWithCleanRepo anchor stamp tr af g1 st1).1.untracked = false := by
        intro g1 st1
        rw [processWithCleanRepo]
        split
        · exact ⟨rfl, rfl, rfl⟩
        · exact ⟨rfl, rfl, rfl⟩
      split_ifs
      · apply hc
      · cases hh : (handleDirtyGitRepo opts anchor stamp g).2.1
        · simp only [hh]
          exact ⟨rfl, rfl, rfl⟩
        · simp only [hh]
          apply hc

/-- `git stash pop` never moves `HEAD`. -/
theorem gitStashPop_head (g : GitRepo) : (gitStashPop g).head = g.head := by
  rw [gitStashPop]
  split
  · rfl
  · rfl

/-- Every intermediate state of the committer run keeps `HEAD` on the
anchor, provided the starting state does. -/
theorem committer_scanl_head (opts : GitStateOptions) (anchor stamp : String) :
    ∀ (trs : List (TaskResult × Bool)) (g : GitRepo) (st : Bool),
      g.head = anchor →
      ∀ p ∈ List.scanl (committerStep opts anchor stamp) (g, st) trs,
        p.1.head = anchor
  | [], g, st, hg, p, hp => by
      simp only [List.scanl] at hp
      rcases List.mem_singleton.mp hp with rfl
      exact hg
  | tra :: trs, g, st, hg, p, hp => by
      simp only [List.scanl] at hp
      rcases List.mem_cons.mp hp with rfl | hp
      · exact hg
      · exact committer_scanl_head opts anchor stamp trs _ _
          (processTaskResult_head opts anchor stamp tra.1 tra.2 g st hg) p hp

/-- The folded committer state keeps `HEAD` on the anchor, provided the
starting state does. -/
theorem committer_foldl_head (opts : GitStateOptions) (anchor stamp : String) :
    ∀ (trs : List (TaskResult × Bool)) (g : GitRepo) (st : Bool),
      g.head = anchor →
      (List.foldl (committerStep opts anchor stamp) (g, st) trs).1.head = anchor
  | [], g, st, hg => hg
  | tra :: trs, g, st, hg => by
      simp only [List.foldl]
      exact committer_foldl_head opts anchor stamp trs _ _
        (processTaskResult_head opts anchor stamp tra.1 tra.2 g st hg)

/-- The error line recorded for a failing command is never the empty
string (it starts with a fixed non-empty prefix), so the `error ||
undefined` coercion always keeps it. -/
theorem errLine_ne_empty (cmd stderr : String) : errLine cmd stderr ≠ "" := by
  intro h
  rw [errLine] at h
  have hlen := congrArg String.length h
  rw [String.length_append, String.length_append, String.length_append] at hlen
  have h16 : ("\nError running '" : String).length = 16 := rfl
  rw [h16] at hlen
  simp at hlen

/-! ### The claims -/

/-- C4: `execBlocking` (`DockerInstance.runCommands`) executes the given
commands in order and stops at the first command whose exit code is
non-zero, returning a result with status `failure` and that command's
captured stderr in the `error` field, with all remaining commands
unexecuted; the accumulated output contains, for every executed command,
that command's stdout prefixed by a line `$ <cmd>`.  (The output is exactly
the rendering of the executed prefix, so the remaining commands contribute
nothing; when the failing command's stderr is empty the error line carries
`Unknown error` in its place, and the empty string is trivially contained
in it.) -/
theorem c4_execBlocking_stops_at_first_failure
    (cname : String) (exec : String → ExecOutcome)
    (pre : List String) (bad : String) (rest : List String) (rb : ExecResult)
    (hpre : ∀ c ∈ pre, ∃ r : ExecResult,
      exec c = ExecOutcome.res r ∧ r.exitCode = some 0)
    (hbad : exec bad = ExecOutcome.res rb) (hbadExit : rb.exitCode ≠ some 0) :
    runCommands (some cname) exec (pre ++ bad :: rest) =
      Except.ok
        { output := batchOutput exec (pre ++ [bad]),
          success := false,
          status := DockerRunStatus.failure,
          error := some (errLine bad rb.stderr) } := by
  have h := runCommandsGo_firstFailure exec pre bad rest rb hpre hbad hbadExit "" ""
  show Except.ok (runCommandsGo exec (pre ++ bad :: rest) "" "") = _
  rw [h, String.empty_append, String.empty_append, errField,
    if_neg (errLine_ne_empty bad rb.stderr)]

/-- Witness for C4: a three-command batch whose middle command exits 1 with
stderr `boom`: the batch stops there, the status is `failure`, the stderr is
in the error field, and the output covers exactly the first two commands. -/
theorem c4_witness :
    runCommands (some "ctr") execAbc ["a", "b", "c"] =
      Except.ok
        { output := "\n$ a\noa\n$ b\nob", success := false,
          status := DockerRunStatus.failure,
          error := some "\nError running 'b': boom" } := by
  have h := c4_execBlocking_stops_at_first_failure "ctr" execAbc ["a"] "b" ["c"]
      { exitCode := some 1, stdout := "ob", stderr := "boom" }
      (by
        intro c hc
        rcases List.mem_singleton.mp hc with rfl
        exact ⟨{ exitCode := some 0, stdout := "oa", stderr := "" }, rfl, rfl⟩)
      rfl (by decide)
  exact h.trans (by rfl)

/-- C5 counterexample: a batch whose only command is killed by the
per-command `timeout` option (it never exits normally, so its exit code is
null) comes back from `runCommands` with status `failure`, not `timeout`:
no branch of `runCommands` ever assigns `DockerRunStatus.TIMEOUT`. -/
theorem c5_timeout_surfaces_as_failure :
    runCommands (some "ctr") execKilledByTimeout ["sleep 10"] =
      Except.ok
        { output := "\n$ sleep 10\n", success := false,
          status := DockerRunStatus.failure,
          error := some "\nError running 'sleep 10': Unknown error" }
    ∧ ((DockerRunStatus.failure == DockerRunStatus.timeout) = false) :=
  ⟨rfl, rfl⟩

/-- C5 amended: the `timeoutSeconds` argument of `runCommands` is handed to
each `spawnSync` individually (per command, not per batch), and a command
killed by it surfaces through the non-zero-exit branch: `runCommands` only
ever returns statuses `success` or `failure`, never `timeout`.  Only
`runCommandAsync` maps a thrown timeout error to `DockerRunStatus.TIMEOUT`. -/
theorem c5_amended_runCommands_never_times_out (cname : String)
    (exec : String → ExecOutcome) (cmds : List String) (out err : String)
    (m command : String) (t : Option Nat) :
    runCommands (some cname) exec cmds = Except.ok (runCommandsGo exec cmds "" "")
    ∧ ((runCommandsGo exec cmds out err).status = DockerRunStatus.success
       ∨ (runCommandsGo exec cmds out err).status = DockerRunStatus.failure)
    ∧ (runCommandAsync (some cname) (AsyncOutcome.thrownTimeout m) command t).map
        CommandResult.status = Except.ok DockerRunStatus.timeout :=
  ⟨rfl, runCommandsGo_status exec cmds out err, rfl⟩

/-- C7 counterexample: the analyzer returns the parsed task list without any
validation.  An empty array (count 0, below the default `minTasks = 1`) and
an entry with an empty `id` are both returned as-is, although the spec's
validation (`specAnalyzerValidate`, with the `DEFAULT_CONFIG` bounds 1 and
10) rejects them. -/
theorem c7_analyzer_returns_invalid_tasks :
    analyzerAcceptTasks DockerRunStatus.success "" (Except.ok []) = Except.ok []
    ∧ specAnalyzerValidate 1 10 [] = false
    ∧ analyzerAcceptTasks DockerRunStatus.success "" (Except.ok [taskEmptyId])
        = Except.ok [taskEmptyId]
    ∧ specAnalyzerValidate 1 10 [taskEmptyId] = false :=
  ⟨rfl, rfl, rfl, rfl⟩

/-- C7 amended: after extracting and parsing the agent-produced task array,
`analyzeCodebase` performs no validation at all: whenever the read of
`tasks.json` succeeds and the parse succeeds, the parsed list is returned
unchanged (whatever its count or entries); a failed read or a parse failure
throws, and those are the only failure paths of this stage. -/
theorem c7_amended_analyzer_parses_without_validation (errText e : String)
    (ts : List Task) (parsed : Except String (List Task)) :
    analyzerAcceptTasks DockerRunStatus.success errText (Except.ok ts)
        = Except.ok ts
    ∧ analyzerAcceptTasks DockerRunStatus.success errText (Except.error e)
        = Except.error ("Error parsing tasks.json: " ++ e)
    ∧ analyzerAcceptTasks DockerRunStatus.failure errText parsed
        = Except.error ("Failed to read tasks.json from Docker: " ++ errText)
    ∧ analyzerAcceptTasks DockerRunStatus.timeout errText parsed
        = Except.error ("Failed to read tasks.json from Docker: " ++ errText) :=
  ⟨rfl, rfl, rfl, rfl⟩

/-- C9: `DockerInstance.startContainer` builds its `docker run` argument
list from the base arguments, the proxy environment variables, the image
and the sleep command only: with the resource limits configured (512 MB,
2 cores) and no proxies, the full argument list contains no memory or CPU
flag at all, and the argument list is entirely independent of
`dockerMemoryMB` and `dockerCpuCores`. -/
theorem c9_startContainer_passes_no_resource_limits :
    startContainerArgs cfgWithLimits none none none none none none
        "copilot-docker-x" "node:latest"
      = ["docker", "run", "-d", "--name", "copilot-docker-x",
         "node:latest", "sleep", "infinity"]
    ∧ (∀ (cfg : Config) (m c : Option Nat)
        (e1 e2 e3 e4 e5 e6 : Option String) (nm im : String),
        startContainerArgs
            { cfg with dockerMemoryMB := m, dockerCpuCores := c }
            e1 e2 e3 e4 e5 e6 nm im
          = startContainerArgs cfg e1 e2 e3 e4 e5 e6 nm im) :=
  ⟨rfl, fun _ _ _ _ _ _ _ _ _ _ _ => rfl⟩

/-- C10: on a `DockerInstance` whose container name is still null (no
successful `startContainer`), each of `runCommands`, `runCommandAsync`,
`copyFileFromContainer` and `copyFileToContainer` throws, so callers never
receive a `CommandResult` whose status field could mask the misuse. -/
theorem c10_null_container_name_throws (exec : String → ExecOutcome)
    (cmds : List String) (aexec : AsyncOutcome) (command : String)
    (t : Option Nat) (cp cp2 : ExecResult) (content : String) :
    runCommands none exec cmds
        = Except.error "Container name is null, cannot run commands"
    ∧ runCommandAsync none aexec command t
        = Except.error "Container name is null, cannot run commands"
    ∧ copyFileFromContainer none cp content
        = Except.error "Container name is null, cannot copy file"
    ∧ copyFileToContainer none cp2
        = Except.error "Container name is null, cannot copy file" :=
  ⟨rfl, rfl, rfl, rfl⟩

/-- C1: at every step of the dispatch loop the size of the scheduler's
active map stays at or below the configured `maxParallelDockerContainers`
(defaulting to 1 when unset): the guard admits a `Map.set` only while
`size < maxP`.  When the task ids are distinct (the data model requires
them unique within a run) the active-map size equals the number of
in-flight Task Solvers, so that count is bounded too. -/
theorem c1_scheduler_respects_parallel_cap (cfg : Config) (ts : List Task)
    (s : SchedState)
    (h : Reachable (effectiveMaxParallel cfg) (initState ts) s) :
    s.activeTasks.length ≤ effectiveMaxParallel cfg
    ∧ ((ts.map Task.ID).Nodup →
        s.inflight.length ≤ effectiveMaxParallel cfg) := by
  refine ⟨sched_keys_le h, fun hnd => ?_⟩
  obtain ⟨k, hk, hq, hperm, hkeys, hterm⟩ := schedInv_reachable hnd h
  have hlen : s.activeTasks.length = s.inflight.length := by
    rw [hkeys, List.length_map]
  exact hlen ▸ sched_keys_le h

/-- Witness for C1: with no configured cap (so the default of 1) and one
task dispatched, the active map has one key and one solver is in flight. -/
theorem c1_witness :
    oneDispatchedState.activeTasks.length ≤ effectiveMaxParallel cfgDefault
    ∧ oneDispatchedState.inflight.length ≤ effectiveMaxParallel cfgDefault :=
  have h := c1_scheduler_respects_parallel_cap cfgDefault [taskA]
    oneDispatchedState
    (Reachable.tail Reachable.refl
      (Step.dispatch (initState [taskA]) taskA [] rfl (by decide)))
  ⟨h.1, h.2 (by decide)⟩

/-- C2 counterexample: two added tasks sharing the id `A`, cap 2.  Both are
dispatched in one burst (the second `Map.set` overwrites the first entry,
leaving one key); when the first solver completes, its `Map.delete` empties
the map, so `start()`'s loop condition is false and it returns — with one
completed result for two added tasks and a solver still in flight. -/
theorem c2_duplicate_ids_lose_a_result :
    Reachable (effectiveMaxParallel cfgPar2) (initState [taskA, taskA])
      dupFinalState
    ∧ dupFinalState.returned
    ∧ dupFinalState.completed.length = 1
    ∧ (initState [taskA, taskA]).queue.length = 2
    ∧ dupFinalState.inflight.length = 1 := by
  refine ⟨?_, ⟨rfl, rfl⟩, rfl, rfl, rfl⟩
  exact Reachable.tail
    (Reachable.tail
      (Reachable.tail Reachable.refl
        (Step.dispatch (initState [taskA, taskA]) taskA [taskA] rfl (by decide)))
      (Step.dispatch
        { queue := [taskA], inflight := [taskA],
          activeTasks := ["A"], completed := [] }
        taskA [] rfl (by decide)))
    (Step.complete
      { queue := [], inflight := [taskA, taskA],
        activeTasks := ["A"], completed := [] }
      taskA okOutcome (by decide))

/-- C2 amended: when the added tasks have pairwise distinct ids, every state
in which `start()` returns (empty queue and empty active map) carries
exactly one completed `TaskResult` per added task — the result ids are a
permutation of the task ids and the counts agree — and every completed
result has a terminal status. -/
theorem c2_amended_one_result_per_task (cfg : Config) (ts : List Task)
    (s : SchedState) (hnd : (ts.map Task.ID).Nodup)
    (h : Reachable (effectiveMaxParallel cfg) (initState ts) s)
    (hret : s.returned) :
    (s.completed.map (fun r => r.task.ID)).Perm (ts.map Task.ID)
    ∧ s.completed.length = ts.length
    ∧ (∀ r ∈ s.completed, r.status.isTerminal = true) := by
  obtain ⟨k, hk, hq, hperm, hkeys, hterm⟩ := schedInv_reachable hnd h
  obtain ⟨hq0, hkeys0⟩ := hret
  have hinfl : s.inflight = [] :=
    List.map_eq_nil_iff.mp (hkeys0 ▸ hkeys).symm
  have hkeq : k = ts.length := by
    rw [hq0] at hq
    have := List.drop_eq_nil_iff.mp hq.symm
    omega
  rw [hinfl] at hperm
  rw [hkeq, List.take_length] at hperm
  simp only [List.map_nil, List.append_nil] at hperm
  refine ⟨hperm, ?_, hterm⟩
  have hlen := hperm.length_eq
  simpa [List.length_map] using hlen

/-- Witness for C2 amended: a single task `A` dispatched and completed; the
returned state carries exactly one result. -/
theorem c2_witness :
    (singleDoneState.completed.map (fun r => r.task.ID)).Perm
      ([taskA].map Task.ID)
    ∧ singleDoneState.completed.length = [taskA].length :=
  have h := c2_amended_one_result_per_task cfgDefault [taskA] singleDoneState
    (by decide)
    (Reachable.tail
      (Reachable.tail Reachable.refl
        (Step.dispatch (initState [taskA]) taskA [] rfl (by decide)))
      (Step.complete oneDispatchedState taskA okOutcome (by decide)))
    ⟨rfl, rfl⟩
  ⟨h.1, h.2.1⟩

/-- C3: a solver whose `solve()` rejects is handled by the scheduler's catch
block as an ordinary completion step: the appended result has status
`FAILURE` and its report is the fixed prefix followed by the exception
text; the queue is untouched (dispatching continues) and every other
in-flight solver stays in flight. -/
theorem c3_solver_exception_isolated (maxP : Nat) (s : SchedState) (t : Task)
    (msg : String) (now : Nat) (ht : t ∈ s.inflight) :
    Step maxP s (errCompletionState s t msg now)
    ∧ (schedFailResult t msg now).status = TaskStatus.failure
    ∧ (schedFailResult t msg now).report = "Error solving task: " ++ msg
    ∧ (errCompletionState s t msg now).completed
        = s.completed ++ [schedFailResult t msg now]
    ∧ (errCompletionState s t msg now).queue = s.queue
    ∧ (∀ u ∈ s.inflight, u ≠ t → u ∈ (errCompletionState s t msg now).inflight) := by
  refine ⟨Step.complete s t (SolveOutcome.err msg now) ht, rfl, rfl, rfl, rfl, ?_⟩
  intro u hu hne
  exact (List.mem_erase_of_ne hne).mpr hu

/-- Witness for C3: the state with one in-flight solver for task `B`: its
exception `boom` becomes a failure result with the exception text. -/
theorem c3_witness :
    Step 1 oneInflightB (errCompletionState oneInflightB taskB "boom" 7)
    ∧ (schedFailResult taskB "boom" 7).status = TaskStatus.failure
    ∧ (schedFailResult taskB "boom" 7).report = "Error solving task: " ++ "boom"
    ∧ (errCompletionState oneInflightB taskB "boom" 7).completed
        = oneInflightB.completed ++ [schedFailResult taskB "boom" 7]
    ∧ (errCompletionState oneInflightB taskB "boom" 7).queue
        = oneInflightB.queue :=
  have h := c3_solver_exception_isolated 1 oneInflightB taskB "boom" 7 (by decide)
  ⟨h.1, h.2.1, h.2.2.1, h.2.2.2.1, h.2.2.2.2.1⟩

/-- C6 counterexample: task `C` lists `D` among its `followingTasks`, yet
with cap 2 the dispatch loop dispatches both in the same burst: `D` is in
flight while its only predecessor `C` is in flight with no terminal result
— the scheduler never consults `followingTasks`. -/
theorem c6_successor_dispatched_while_predecessor_in_flight :
    taskD.ID ∈ taskC.followingTasks
    ∧ Reachable (effectiveMaxParallel cfgPar2) (initState [taskC, taskD])
        bothInflightState
    ∧ taskC ∈ bothInflightState.inflight
    ∧ taskD ∈ bothInflightState.inflight
    ∧ bothInflightState.completed = [] := by
  refine ⟨by decide, ?_, by decide, by decide, rfl⟩
  exact Reachable.tail
    (Reachable.tail Reachable.refl
      (Step.dispatch (initState [taskC, taskD]) taskC [taskD] rfl (by decide)))
    (Step.dispatch
      { queue := [taskD], inflight := [taskC],
        activeTasks := ["C"], completed := [] }
      taskD [] rfl (by decide))

/-- C6 amended: the scheduler ignores `followingTasks` and dispatches
strictly in queue order under the capacity cap alone; only when the
effective parallelism is 1 does FIFO order force every task earlier in the
queue — in particular a predecessor queued ahead of its successor — to have
a terminal completed result before the next task can be dispatched. -/
theorem c6_amended_fifo_serialises_at_cap_one (cfg : Config) (ts : List Task)
    (s : SchedState) (k : Nat) (u : Task)
    (hcap1 : effectiveMaxParallel cfg = 1)
    (hnd : (ts.map Task.ID).Nodup)
    (h : Reachable (effectiveMaxParallel cfg) (initState ts) s)
    (hq : s.queue = ts.drop k) (hk : k ≤ ts.length)
    (hdispatch : s.activeTasks.length < 1)
    (hu : u ∈ ts.take k) :
    ∃ r ∈ s.completed, r.task.ID = u.ID ∧ r.status.isTerminal = true := by
  obtain ⟨k2, hk2, hq2, hperm, hkeys, hterm⟩ :=
    schedInv_reachable hnd (hcap1 ▸ h)
  have hkeys0 : s.activeTasks = [] :=
    List.eq_nil_of_length_eq_zero (by omega)
  have hinfl : s.inflight = [] :=
    List.map_eq_nil_iff.mp (hkeys0 ▸ hkeys).symm
  have hkk : k2 = k := by
    rw [hq] at hq2
    have hlen := congrArg List.length hq2
    rw [List.length_drop, List.length_drop] at hlen
    omega
  subst hkk
  rw [hinfl] at hperm
  simp only [List.map_nil, List.append_nil] at hperm
  have hmem : u.ID ∈ s.completed.map (fun r => r.task.ID) :=
    hperm.mem_iff.mpr (List.mem_map_of_mem Task.ID hu)
  obtain ⟨r, hr, hrid⟩ := List.mem_map.mp hmem
  exact ⟨r, hr, hrid, hterm r hr⟩

/-- Witness for C6 amended: cap 1, queue `[C, D]`: in the reachable state
where `C` completed and `D` is still queued, the predecessor `C` has a
terminal result with its id. -/
theorem c6_witness :
    (completionResult taskC okOutcome).task.ID = taskC.ID
    ∧ (completionResult taskC okOutcome).status.isTerminal = true := by
  obtain ⟨r, hr, hrid, hrterm⟩ :=
    c6_amended_fifo_serialises_at_cap_one cfgDefault [taskC, taskD]
      serialMidState 1 taskC rfl (by decide)
      (Reachable.tail
        (Reachable.tail Reachable.refl
          (Step.dispatch (initState [taskC, taskD]) taskC [taskD] rfl
            (by decide)))
        (Step.complete
          { queue := [taskD], inflight := [taskC],
            activeTasks := ["C"], completed := [] }
          taskC okOutcome (by decide)))
      rfl (by decide) (by decide) (by decide)
  have hr1 : r = completionResult taskC okOutcome := by
    simpa [serialMidState] using hr
  rw [hr1] at hrid hrterm
  exact ⟨hrid, hrterm⟩

/-- C8 counterexample: two runs in which `commitAllChanges` returns with
`HEAD` on the anchor but a working tree that has not been "reset with
untracked files removed".  First: a no-op task (empty patch) takes the
skip path, which never runs `returnToOriginalNode`, so a pre-existing
untracked file survives to the return.  Second: with auto-stash and a
dirty tree, the final `git stash pop` restores the tracked modifications,
so the tree is dirty again when `commitAllChanges` returns. -/
theorem c8_return_state_not_fully_clean :
    (commitAllChanges plainOpts "1700" [(noopResult, false)] repoUntracked).1.head
        = repoUntracked.head
    ∧ (commitAllChanges plainOpts "1700" [(noopResult, false)] repoUntracked).1.untracked
        = true
    ∧ (commitAllChanges stashOpts "1700" [(patchResult, false)] repoDirty).1.head
        = repoDirty.head
    ∧ (commitAllChanges stashOpts "1700" [(patchResult, false)] repoDirty).1.dirtyTracked
        = true := by
  refine ⟨rfl, rfl, ?_, ?_⟩ <;> rfl

/-- C8 amended: on every path of `commitAllChanges` — each per-task state
and the returned state, success or per-task error, whatever the recovery
options — `HEAD` is back on the anchor commit recorded at construction;
and every task that is not skipped as a no-op (non-empty patch, or a
validation failure) ends in `returnToOriginalNode`, which also resets the
tracked files hard and removes untracked files, so each created task
branch starts from a clean baseline.  (A no-op task leaves the tree as it
was, and a final stash pop may re-dirty it; only `HEAD` is guaranteed at
return.) -/
theorem c8_amended_head_always_on_anchor (opts : GitStateOptions)
    (stamp : String) (trs : List (TaskResult × Bool)) (g0 : GitRepo)
    (tr : TaskResult) (af : Bool) (g : GitRepo) (st : Bool) :
    (commitAllChanges opts stamp trs g0).1.head = g0.head
    ∧ (∀ p ∈ committerStates opts stamp trs g0, p.1.head = g0.head)
    ∧ (validateTaskResult tr = false ∨ gitDiffEmpty tr = false →
        (processTaskResult opts g0.head stamp tr af g st).1.head = g0.head
        ∧ (processTaskResult opts g0.head stamp tr af g st).1.dirtyTracked = false
        ∧ (processTaskResult opts g0.head stamp tr af g st).1.untracked = false) := by
  refine ⟨?_, ?_, ?_⟩
  · have hf := committer_foldl_head opts g0.head stamp trs g0 false rfl
    simp only [commitAllChanges]
    cases hc : (List.foldl (committerStep opts g0.head stamp) (g0, false) trs).2
    · rw [if_neg (by simp)]
      exact hf
    · rw [if_pos rfl]
      exact (gitStashPop_head _).trans hf
  · exact committer_scanl_head opts g0.head stamp trs g0 false rfl
  · intro h
    exact processTaskResult_cleans opts g0.head stamp tr af g st h

/-- Witness for C8 amended: a clean repository and one task with a
non-empty patch: the run returns to the anchor and the per-task processing
leaves the tree fully clean. -/
theorem c8_witness :
    (commitAllChanges plainOpts "1700" [(patchResult, false)] repoClean).1.head
        = repoClean.head
    ∧ (processTaskResult plainOpts repoClean.head "1700" patchResult false
        repoClean false).1.dirtyTracked = false
    ∧ (processTaskResult plainOpts repoClean.head "1700" patchResult false
        repoClean false).1.untracked = false :=
  have h := c8_amended_head_always_on_anchor plainOpts "1700"
    [(patchResult, false)] repoClean patchResult false repoClean false
  ⟨h.1, (h.2.2 (Or.inr (by decide))).2.1, (h.2.2 (Or.inr (by decide))).2.2⟩

end FSC
